import Mathlib

/-!
# nRF51 SHT2x / DS1624 driver: embedding and verified properties

Shallow embedding of `src/sht2x.c` (checksummed SHT2x variant) and
`src/sht21.c` (DS1624 variant).  Machine bytes are natural numbers with an
explicit `% 256` wherever the C code stores into a `uint8_t`.  The two-wire
bus primitive `twi_master_transfer` is an external collaborator and is
taken as a parameter: a state type `σ` and a response function.
-/

namespace Sht2x

/-! ## Constants of the headers that are not part of the sources -/

/-- Constants supplied by `sht2x.h` and `twi_master.h`, which are not among
the source files; every definition below takes them as a parameter. -/
structure Consts where
  POLYNOMIAL : Nat
  SHT2X_I2C_ADDRESS : Nat
  USER_REG_R : Nat
  TWI_READ_BIT : Nat
  TWI_ISSUE_STOP : Bool
  TWI_DONT_ISSUE_STOP : Bool

/-- The values of the Sensirion SHT2x data sheet and of the Nordic two-wire
master header, used for concrete evaluation. -/
def sht2xConsts : Consts :=
  { POLYNOMIAL := 0x131
    SHT2X_I2C_ADDRESS := 0x80
    USER_REG_R := 0xE7
    TWI_READ_BIT := 0x01
    TWI_ISSUE_STOP := true
    TWI_DONT_ISSUE_STOP := false }

/-! ## Error codes (`sht2x_error_t`) -/

def SHT2X_ERROR_NONE : Nat := 0x00
def SHT2X_ERROR_READ_FAILED : Nat := 0x01
def SHT2X_ERROR_CRC : Nat := 0x02

/-! ## `sht2x_check_crc` -/

/-- Body of the inner `for (bit = 8; bit > 0; --bit)` loop: one shift step of
the `uint8_t` accumulator. -/
def crc_bit_step (POLYNOMIAL crc : Nat) : Nat :=
  if crc &&& 0x80 ≠ 0 then ((crc <<< 1) ^^^ POLYNOMIAL) % 256
  else (crc <<< 1) % 256

/-- The inner loop, run from `bit` down to zero. -/
def crc_bit_loop (POLYNOMIAL : Nat) : Nat → Nat → Nat
  | 0, crc => crc
  | bit + 1, crc => crc_bit_loop POLYNOMIAL bit (crc_bit_step POLYNOMIAL crc)

/-- The outer `for (byte_index = 0; byte_index < num_bytes; ++byte_index)`
loop; the first argument counts the iterations still to run. -/
def crc_byte_loop (POLYNOMIAL : Nat) (data : List Nat) : Nat → Nat → Nat → Nat
  | 0, _, crc => crc
  | remaining + 1, byte_index, crc =>
    crc_byte_loop POLYNOMIAL data remaining (byte_index + 1)
      (crc_bit_loop POLYNOMIAL 8 ((crc ^^^ data.getD byte_index 0) % 256))

/-- Embedding of `sht2x_check_crc(data, num_bytes, checksum)`. -/
def sht2x_check_crc (POLYNOMIAL : Nat) (data : List Nat) (num_bytes checksum : Nat) : Nat :=
  let crc := crc_byte_loop POLYNOMIAL data num_bytes 0 0
  if crc ≠ checksum then SHT2X_ERROR_CRC else 0

/-! ## The CRC-8 of the specification -/

/-- One shift-and-conditional-XOR step of the specification: if the high bit
of the accumulator is set, shift left and XOR with the polynomial, otherwise
shift left; truncated to 8 bits. -/
def crc8_shift (polynomial acc : Nat) : Nat :=
  if acc.testBit 7 then ((2 * acc) ^^^ polynomial) % 256 else (2 * acc) % 256

/-- The specification's `crc8(data, polynomial)`: accumulator starting at
zero, each byte XORed in and followed by eight shift steps. -/
def crc8 (polynomial : Nat) (data : List Nat) : Nat :=
  data.foldl (fun acc b => (crc8_shift polynomial)^[8] ((acc ^^^ b) % 256)) 0

/-! ## The two-wire bus primitive -/

/-- Direction of a transfer as the driver uses the buffer: `write` when it
supplies the bytes, `read` when it reads the buffer afterwards. -/
inductive Dir where
  | write
  | read
  deriving DecidableEq

/-- One call `twi_master_transfer(address, data, data_length, issue_stop_condition)`.
For a write `data` is the payload; for a read it is empty. -/
structure Xfer where
  dir : Dir
  address : Nat
  data : List Nat
  data_length : Nat
  issue_stop_condition : Bool
  deriving DecidableEq

/-- Behaviour of the bus: from its state and a transfer it gives the success
flag, the bytes placed in the buffer and the next state.  The driver reads
buffer byte `i` as `getD i 0 % 256`. -/
abbrev Twi (σ : Type) := σ → Xfer → (Bool × List Nat) × σ

/-- Driver state: the bus, the transfers issued so far (oldest first) and the
file-scope variable `m_device_address`. -/
structure Drv (σ : Type) where
  bus : σ
  log : List Xfer
  m_device_address : Nat

/-- A call of `twi_master_transfer`: ask the bus and record the transfer. -/
def twi_master_transfer {σ : Type} (twi : Twi σ) (s : Drv σ) (x : Xfer) :
    (Bool × List Nat) × Drv σ :=
  ((twi s.bus x).1, { s with bus := (twi s.bus x).2, log := s.log ++ [x] })

/-- A bus that answers from a fixed list of responses, one per transfer, and
fails once the list is used up. -/
def scripted : Twi (List (Bool × List Nat))
  | [], _ => ((false, []), [])
  | r :: rest, _ => (r, rest)

/-! ## `src/sht2x.c`: `sht2x_config_read` -/

/-- Embedding of `sht2x_config_read(user_register)`.  `mem` gives the byte
stored at an address: the command buffer is the integer `USER_REG_R` cast to
a pointer.  The argument `user_register` is the value of `*user_register` on
entry; the result is the return code, the value of `*user_register` on exit
and the driver state.  The union `read_config_result_t` is laid out for the
little-endian target: `raw = byte0 + 256 * byte1`. -/
def sht2x_config_read {σ : Type} (E : Consts) (mem : Nat → Nat) (twi : Twi σ)
    (s : Drv σ) (user_register : Nat) : Nat × Nat × Drv σ :=
  let w := twi_master_transfer twi s
    ⟨Dir.write, E.SHT2X_I2C_ADDRESS % 256, [mem E.USER_REG_R % 256], 1, E.TWI_DONT_ISSUE_STOP⟩
  if w.1.1 then
    let r := twi_master_transfer twi w.2
      ⟨Dir.read, (E.SHT2X_I2C_ADDRESS ||| E.TWI_READ_BIT) % 256, [], 2, E.TWI_ISSUE_STOP⟩
    if r.1.1 then
      let result_user_register := r.1.2.getD 0 0 % 256
      let result_checksum := r.1.2.getD 1 0 % 256
      let result_raw := result_user_register + 256 * result_checksum
      let checksum_error :=
        sht2x_check_crc E.POLYNOMIAL [result_user_register] 1 result_checksum
      if checksum_error = SHT2X_ERROR_CRC ∨ checksum_error ≠ 0 then
        (SHT2X_ERROR_CRC, user_register, r.2)
      else
        (SHT2X_ERROR_NONE, result_raw % 256, r.2)
    else
      (SHT2X_ERROR_READ_FAILED, user_register, r.2)
  else
    (SHT2X_ERROR_NONE, user_register, w.2)

/-! ## `src/sht21.c`: the DS1624 driver -/

def DS1634_BASE_ADDRESS : Nat := 0x90
def DS1624_ONESHOT_MODE : Nat := 0x01
def DS1624_CONVERSION_DONE : Nat := 0x80

def command_access_memory : Nat := 0x17
def command_access_config : Nat := 0xAC
def command_read_temp : Nat := 0xAA
def command_start_convert_temp : Nat := 0xEE
def command_stop_convert_temp : Nat := 0x22

/-- Embedding of `ds1624_config_read()`: the configuration byte (zero when a
sub-transfer failed) and the driver state. -/
def ds1624_config_read {σ : Type} (E : Consts) (twi : Twi σ) (s : Drv σ) : Nat × Drv σ :=
  let w := twi_master_transfer twi s
    ⟨Dir.write, s.m_device_address, [command_access_config], 1, E.TWI_DONT_ISSUE_STOP⟩
  if w.1.1 then
    let r := twi_master_transfer twi w.2
      ⟨Dir.read, (w.2.m_device_address ||| E.TWI_READ_BIT) % 256, [], 1, E.TWI_ISSUE_STOP⟩
    if r.1.1 then (r.1.2.getD 0 0 % 256, r.2) else (0, r.2)
  else
    (0, w.2)

/-- The value `DS1634_BASE_ADDRESS + (uint8_t)(device_address << 1)` stored into
the `uint8_t` variable `m_device_address` by `ds1624_init`. -/
def ds1624_bus_address (device_address : Nat) : Nat :=
  (DS1634_BASE_ADDRESS + (device_address <<< 1) % 256) % 256

/-- Embedding of `ds1624_init(device_address)`. -/
def ds1624_init {σ : Type} (E : Consts) (twi : Twi σ) (s : Drv σ) (device_address : Nat) :
    Bool × Drv σ :=
  let transfer_succeeded := true
  let s0 : Drv σ := { s with m_device_address := ds1624_bus_address device_address }
  let c := ds1624_config_read E twi s0
  if c.1 ≠ 0 then
    if c.1 &&& DS1624_ONESHOT_MODE = 0 then
      let data_buffer := [command_access_config, DS1624_ONESHOT_MODE]
      let t := twi_master_transfer twi c.2
        ⟨Dir.write, c.2.m_device_address, data_buffer, 2, E.TWI_ISSUE_STOP⟩
      (transfer_succeeded && t.1.1, t.2)
    else
      (transfer_succeeded, c.2)
  else
    (false, c.2)

/-- Embedding of `ds1624_start_temp_conversion()`. -/
def ds1624_start_temp_conversion {σ : Type} (E : Consts) (twi : Twi σ) (s : Drv σ) :
    Bool × Drv σ :=
  let t := twi_master_transfer twi s
    ⟨Dir.write, s.m_device_address, [command_start_convert_temp], 1, E.TWI_ISSUE_STOP⟩
  (t.1.1, t.2)

/-- Embedding of `ds1624_is_temp_conversion_done()`. -/
def ds1624_is_temp_conversion_done {σ : Type} (E : Consts) (twi : Twi σ) (s : Drv σ) :
    Bool × Drv σ :=
  let c := ds1624_config_read E twi s
  if c.1 &&& DS1624_CONVERSION_DONE ≠ 0 then (true, c.2) else (false, c.2)

/-- The conversion `(int8_t)b` of a byte. -/
def int8_of_byte (b : Nat) : Int :=
  if b % 256 < 128 then ((b % 256 : Nat) : Int) else ((b % 256 : Nat) : Int) - 256

/-- Embedding of `ds1624_temp_read(temperature_in_celcius, temperature_fraction)`.
The two arguments are the values of the pointed-to objects on entry; the
result is the return value, their values on exit and the driver state. -/
def ds1624_temp_read {σ : Type} (E : Consts) (twi : Twi σ) (s : Drv σ)
    (temperature_in_celcius temperature_fraction : Int) : Bool × Int × Int × Drv σ :=
  let w := twi_master_transfer twi s
    ⟨Dir.write, s.m_device_address, [command_read_temp], 1, E.TWI_DONT_ISSUE_STOP⟩
  if w.1.1 then
    let r := twi_master_transfer twi w.2
      ⟨Dir.read, (w.2.m_device_address ||| E.TWI_READ_BIT) % 256, [], 2, E.TWI_ISSUE_STOP⟩
    if r.1.1 then
      (true, int8_of_byte (r.1.2.getD 0 0), int8_of_byte (r.1.2.getD 1 0), r.2)
    else
      (false, temperature_in_celcius, temperature_fraction, r.2)
  else
    (false, temperature_in_celcius, temperature_fraction, w.2)

/-- The operations a caller may issue after `ds1624_init`. -/
inductive Op where
  | start_temp_conversion
  | is_temp_conversion_done
  | temp_read
  deriving DecidableEq

/-- The driver state after one operation (results are dropped). -/
def run_op {σ : Type} (E : Consts) (twi : Twi σ) (s : Drv σ) : Op → Drv σ
  | Op.start_temp_conversion => (ds1624_start_temp_conversion E twi s).2
  | Op.is_temp_conversion_done => (ds1624_is_temp_conversion_done E twi s).2
  | Op.temp_read => (ds1624_temp_read E twi s 0 0).2.2.2

/-- The driver state after a sequence of operations. -/
def run_ops {σ : Type} (E : Consts) (twi : Twi σ) (s : Drv σ) (ops : List Op) : Drv σ :=
  ops.foldl (run_op E twi) s

/-- Every transfer in `issued` goes to address `m` if it is a write and to
`(m ||| TWI_READ_BIT) % 256` if it is a read. -/
def addressed_to (E : Consts) (m : Nat) (issued : List Xfer) : Prop :=
  ∀ x ∈ issued, (x.dir = Dir.write → x.address = m)
    ∧ (x.dir = Dir.read → x.address = (m ||| E.TWI_READ_BIT) % 256)

instance (E : Consts) (m : Nat) (issued : List Xfer) : Decidable (addressed_to E m issued) := by
  unfold addressed_to
  infer_instance

end Sht2x

/-! # Verified properties -/

namespace Sht2x

/-! ## Bit-level facts about the CRC loops -/

theorem and_128_ne_zero_iff (c : Nat) : c &&& 0x80 ≠ 0 ↔ c.testBit 7 = true := by
  have h128 : (0x80 : Nat) = 2 ^ 7 := by norm_num
  constructor
  · intro h
    by_contra hb
    apply h
    apply Nat.eq_of_testBit_eq
    intro i
    rw [Nat.testBit_and, h128, Nat.testBit_two_pow]
    by_cases hi : 7 = i
    · subst hi; simp at hb; simp [hb]
    · simp [hi]
  · intro h h0
    have hbit := congrArg (fun n => Nat.testBit n 7) h0
    simp only [Nat.testBit_and, h128, Nat.testBit_two_pow_self, h] at hbit
    simp at hbit

theorem crc_bit_step_eq_crc8_shift (p c : Nat) : crc_bit_step p c = crc8_shift p c := by
  unfold crc_bit_step crc8_shift
  have hs : c <<< 1 = 2 * c := by rw [Nat.shiftLeft_eq]; omega
  rw [hs]
  by_cases h : c.testBit 7 = true
  · rw [if_pos ((and_128_ne_zero_iff c).2 h), if_pos h]
  · rw [if_neg (fun h1 => h ((and_128_ne_zero_iff c).1 h1)), if_neg h]

theorem crc_bit_loop_eq_iterate (p : Nat) (n c : Nat) :
    crc_bit_loop p n c = (crc8_shift p)^[n] c := by
  induction n generalizing c with
  | zero => rfl
  | succ n ih =>
    rw [crc_bit_loop, ih, crc_bit_step_eq_crc8_shift, Function.iterate_succ_apply]

theorem crc_byte_loop_eq_foldl (p : Nat) (data : List Nat) (n i c : Nat)
    (h : i + n ≤ data.length) :
    crc_byte_loop p data n i c
      = ((data.drop i).take n).foldl
          (fun acc b => (crc8_shift p)^[8] ((acc ^^^ b) % 256)) c := by
  induction n generalizing i c with
  | zero => simp [crc_byte_loop]
  | succ n ih =>
    have hi : i < data.length := by omega
    rw [crc_byte_loop, ih (i + 1) _ (by omega), crc_bit_loop_eq_iterate]
    rw [List.drop_eq_getElem_cons hi, List.take_succ_cons, List.foldl_cons]
    rw [List.getD_eq_getElem _ _ hi]

theorem crc_byte_loop_eq_crc8 (p : Nat) (data : List Nat) (n : Nat) (h : n ≤ data.length) :
    crc_byte_loop p data n 0 0 = crc8 p (data.take n) := by
  rw [crc_byte_loop_eq_foldl p data n 0 0 (by omega)]
  rfl

theorem crc_bit_step_lt (p c : Nat) : crc_bit_step p c < 256 := by
  unfold crc_bit_step
  split <;> exact Nat.mod_lt _ (by norm_num)

theorem crc_bit_loop_lt (p n c : Nat) (hc : c < 256) : crc_bit_loop p n c < 256 := by
  induction n generalizing c with
  | zero => exact hc
  | succ n ih => exact ih _ (crc_bit_step_lt p c)

theorem crc_byte_loop_lt (p : Nat) (data : List Nat) (n i c : Nat) (hc : c < 256) :
    crc_byte_loop p data n i c < 256 := by
  induction n generalizing i c with
  | zero => exact hc
  | succ n ih => exact ih _ _ (crc_bit_loop_lt p 8 _ (Nat.mod_lt _ (by norm_num)))

theorem crc_bit_step_testBit (p c i : Nat) :
    (crc_bit_step p c).testBit i
      = (decide (i < 8) && (xor (decide (1 ≤ i) && c.testBit (i - 1))
                               (c.testBit 7 && p.testBit i))) := by
  unfold crc_bit_step
  have h256 : (256 : Nat) = 2 ^ 8 := by norm_num
  by_cases h : c.testBit 7 = true
  · rw [if_pos ((and_128_ne_zero_iff c).2 h), h256, Nat.testBit_mod_two_pow, Nat.testBit_xor,
      Nat.testBit_shiftLeft, h]
    simp
  · rw [if_neg (fun h1 => h ((and_128_ne_zero_iff c).1 h1)), h256, Nat.testBit_mod_two_pow,
      Nat.testBit_shiftLeft]
    simp at h
    simp [h]

theorem byte_testBit_high (c j : Nat) (hc : c < 256) (hj : 8 ≤ j) : c.testBit j = false := by
  apply Nat.testBit_lt_two_pow
  calc c < 2 ^ 8 := by norm_num; exact hc
    _ ≤ 2 ^ j := Nat.pow_le_pow_right (by norm_num) hj

/-- With an odd polynomial one shift step is injective on bytes: the low bit
of the result is the high bit of the argument. -/
theorem crc_bit_step_inj (p : Nat) (hp : p % 2 = 1) (c d : Nat) (hc : c < 256) (hd : d < 256)
    (h : crc_bit_step p c = crc_bit_step p d) : c = d := by
  have hb : ∀ i, (crc_bit_step p c).testBit i = (crc_bit_step p d).testBit i := by
    intro i; rw [h]
  have hp0 : p.testBit 0 = true := by rw [Nat.testBit_zero]; simp [hp]
  have h7 : c.testBit 7 = d.testBit 7 := by
    have h0 := hb 0
    rw [crc_bit_step_testBit, crc_bit_step_testBit, hp0] at h0
    simpa using h0
  apply Nat.eq_of_testBit_eq
  intro j
  by_cases hj8 : 8 ≤ j
  · rw [byte_testBit_high c j hc hj8, byte_testBit_high d j hd hj8]
  · by_cases hj7 : j = 7
    · rw [hj7]; exact h7
    · have hj := hb (j + 1)
      rw [crc_bit_step_testBit, crc_bit_step_testBit, h7] at hj
      have hlt : j + 1 < 8 := by omega
      simp only [hlt, decide_True, Bool.true_and, Nat.le_add_left, Nat.add_sub_cancel] at hj
      exact Bool.xor_right_inj.1 hj

theorem crc_bit_loop_inj (p : Nat) (hp : p % 2 = 1) (n c d : Nat) (hc : c < 256) (hd : d < 256)
    (h : crc_bit_loop p n c = crc_bit_loop p n d) : c = d := by
  induction n generalizing c d with
  | zero => exact h
  | succ n ih =>
    exact crc_bit_step_inj p hp c d hc hd
      (ih _ _ (crc_bit_step_lt p c) (crc_bit_step_lt p d) h)

theorem xor_mod_256_inj_left (c d b : Nat) (hc : c < 256) (hd : d < 256)
    (h : (c ^^^ b) % 256 = (d ^^^ b) % 256) : c = d := by
  have h256 : (256 : Nat) = 2 ^ 8 := by norm_num
  apply Nat.eq_of_testBit_eq
  intro j
  by_cases hj8 : 8 ≤ j
  · rw [byte_testBit_high c j hc hj8, byte_testBit_high d j hd hj8]
  · have hj := congrArg (fun n => Nat.testBit n j) h
    simp only [h256, Nat.testBit_mod_two_pow, Nat.testBit_xor] at hj
    have hlt : j < 8 := by omega
    simp only [hlt, decide_True, Bool.true_and] at hj
    exact Bool.xor_right_inj.1 hj

theorem xor_flip_mod_256_ne (c b j : Nat) (hj : j < 8) :
    (c ^^^ b) % 256 ≠ (c ^^^ (b ^^^ 2 ^ j)) % 256 := by
  have h256 : (256 : Nat) = 2 ^ 8 := by norm_num
  intro h
  have hbit := congrArg (fun n => Nat.testBit n j) h
  simp only [h256, Nat.testBit_mod_two_pow, Nat.testBit_xor, Nat.testBit_two_pow_self, hj,
    decide_True, Bool.true_and] at hbit
  revert hbit
  cases c.testBit j <;> cases b.testBit j <;> simp

theorem xor_two_pow_ne (k j : Nat) : k ≠ k ^^^ 2 ^ j := by
  intro h
  have hbit := congrArg (fun n => Nat.testBit n j) h
  simp only [Nat.testBit_xor, Nat.testBit_two_pow_self] at hbit
  revert hbit
  cases k.testBit j <;> simp

/-- Two runs of the byte loop that start from different accumulators and
read the same bytes end in different accumulators. -/
theorem crc_byte_loop_ne_of_ne (p : Nat) (hp : p % 2 = 1) (data other : List Nat)
    (n i c d : Nat) (hc : c < 256) (hd : d < 256) (hne : c ≠ d)
    (hsame : ∀ k, i ≤ k → data.getD k 0 = other.getD k 0) :
    crc_byte_loop p data n i c ≠ crc_byte_loop p other n i d := by
  induction n generalizing i c d with
  | zero => exact hne
  | succ n ih =>
    rw [crc_byte_loop, crc_byte_loop, ← hsame i (Nat.le_refl i)]
    apply ih
    · exact crc_bit_loop_lt p 8 _ (Nat.mod_lt _ (by norm_num))
    · exact crc_bit_loop_lt p 8 _ (Nat.mod_lt _ (by norm_num))
    · intro h
      have h1 := crc_bit_loop_inj p hp 8 _ _ (Nat.mod_lt _ (by norm_num))
        (Nat.mod_lt _ (by norm_num)) h
      exact hne (xor_mod_256_inj_left c d _ hc hd h1)
    · intro k hk; exact hsame k (by omega)

/-- Flipping one bit of a byte the loop still has to read changes the final
accumulator. -/
theorem crc_byte_loop_flip_ne (p : Nat) (hp : p % 2 = 1) (data : List Nat) (n i k j c : Nat)
    (hc : c < 256) (hik : i ≤ k) (hkn : k < i + n) (hk : k < data.length) (hj : j < 8) :
    crc_byte_loop p data n i c
      ≠ crc_byte_loop p (data.set k (data.getD k 0 ^^^ 2 ^ j)) n i c := by
  induction n generalizing i c with
  | zero => omega
  | succ n ih =>
    rw [crc_byte_loop, crc_byte_loop]
    by_cases hi : i = k
    · subst hi
      apply crc_byte_loop_ne_of_ne p hp
      · exact crc_bit_loop_lt p 8 _ (Nat.mod_lt _ (by norm_num))
      · exact crc_bit_loop_lt p 8 _ (Nat.mod_lt _ (by norm_num))
      · intro h
        have h1 := crc_bit_loop_inj p hp 8 _ _ (Nat.mod_lt _ (by norm_num))
          (Nat.mod_lt _ (by norm_num)) h
        have hset : (data.set i (data.getD i 0 ^^^ 2 ^ j)).getD i 0
            = data.getD i 0 ^^^ 2 ^ j := by
          simp [List.getD_eq_getElem?_getD, List.getElem?_set, hk]
        rw [hset] at h1
        exact xor_flip_mod_256_ne c _ j hj h1
      · intro m hm
        have hne : i ≠ m := by omega
        simp [List.getD_eq_getElem?_getD, List.getElem?_set, hne]
    · have hset : (data.set k (data.getD k 0 ^^^ 2 ^ j)).getD i 0 = data.getD i 0 := by
        have hne : k ≠ i := fun h => hi h.symm
        simp [List.getD_eq_getElem?_getD, List.getElem?_set, hne]
      rw [hset]
      exact ih (i + 1) _ (crc_bit_loop_lt p 8 _ (Nat.mod_lt _ (by norm_num))) (by omega) (by omega)

/-! ## The CRC-8 validator -/

/-- The validator on a one-byte frame, as `sht2x_config_read` calls it. -/
theorem check_crc_single_byte (p r k : Nat) :
    (k = crc8 p [r] → sht2x_check_crc p [r] 1 k = 0)
      ∧ (k ≠ crc8 p [r] → sht2x_check_crc p [r] 1 k = SHT2X_ERROR_CRC) := by
  have h := crc_byte_loop_eq_crc8 p [r] 1 (by simp)
  rw [List.take_of_length_le (by simp)] at h
  unfold sht2x_check_crc
  simp only [h]
  constructor
  · intro he
    exact if_neg (fun hne => hne he.symm)
  · intro hne
    exact if_pos (fun he => hne he.symm)

/-- Claim C1: for every byte array, every `num_bytes` not exceeding its length
and every checksum, `sht2x_check_crc` returns 0 exactly when the checksum is
the specification's CRC-8 of the first `num_bytes` bytes, and returns
`SHT2X_ERROR_CRC` (0x02) otherwise. -/
theorem sht2x_check_crc_iff_crc8 (POLYNOMIAL : Nat) (data : List Nat) (num_bytes checksum : Nat)
    (h : num_bytes ≤ data.length) :
    (sht2x_check_crc POLYNOMIAL data num_bytes checksum = 0
        ↔ checksum = crc8 POLYNOMIAL (data.take num_bytes))
      ∧ (checksum ≠ crc8 POLYNOMIAL (data.take num_bytes)
        → sht2x_check_crc POLYNOMIAL data num_bytes checksum = SHT2X_ERROR_CRC)
      ∧ SHT2X_ERROR_CRC = 0x02 := by
  unfold sht2x_check_crc
  simp only [crc_byte_loop_eq_crc8 POLYNOMIAL data num_bytes h]
  refine ⟨?_, ?_, rfl⟩
  · constructor
    · intro h0
      by_contra hne
      rw [if_pos (fun he => hne he.symm)] at h0
      exact absurd h0 (by decide)
    · intro he
      rw [if_neg (fun hne => hne he.symm)]
  · intro hne
    rw [if_pos (fun he => hne he.symm)]

/-- Witness for C1 with the SHT2x polynomial 0x131: the CRC-8 of the single
byte 0xDC is 0x79 and the validator accepts that frame. -/
theorem sht2x_check_crc_iff_crc8_witness :
    1 ≤ [0xDC].length ∧ crc8 0x131 ([0xDC].take 1) = 0x79
      ∧ sht2x_check_crc 0x131 [0xDC] 1 0x79 = 0 :=
  ⟨by decide, by decide,
    (sht2x_check_crc_iff_crc8 0x131 [0xDC] 1 0x79 (by decide)).1.2 (by decide)⟩

/-- Claim C2: for an odd polynomial constant, if `sht2x_check_crc` accepts the
frame `(data, checksum)` then it rejects with `SHT2X_ERROR_CRC` the frame with
one bit flipped, in a data byte or in the checksum byte. -/
theorem sht2x_check_crc_rejects_bit_flip (POLYNOMIAL : Nat) (data : List Nat)
    (num_bytes checksum byte_index bit : Nat)
    (hp : POLYNOMIAL % 2 = 1) (hn : num_bytes ≤ data.length)
    (hi : byte_index < num_bytes) (hb : bit < 8)
    (hacc : sht2x_check_crc POLYNOMIAL data num_bytes checksum = 0) :
    sht2x_check_crc POLYNOMIAL (data.set byte_index (data.getD byte_index 0 ^^^ 2 ^ bit))
        num_bytes checksum = SHT2X_ERROR_CRC
      ∧ sht2x_check_crc POLYNOMIAL data num_bytes (checksum ^^^ 2 ^ bit) = SHT2X_ERROR_CRC := by
  have hcrc : crc_byte_loop POLYNOMIAL data num_bytes 0 0 = checksum := by
    unfold sht2x_check_crc at hacc
    by_contra hne
    simp only [ne_eq, hne, not_false_eq_true, if_true] at hacc
    exact absurd hacc (by decide)
  constructor
  · unfold sht2x_check_crc
    have hne := crc_byte_loop_flip_ne POLYNOMIAL hp data num_bytes 0 byte_index bit 0
      (by norm_num) (Nat.zero_le _) (by omega) (by omega) hb
    rw [hcrc] at hne
    exact if_pos (fun he => hne he.symm)
  · unfold sht2x_check_crc
    rw [hcrc]
    exact if_pos (xor_two_pow_ne checksum bit)

/-- Witness for C2: the accepted frame (0xDC, 0x79) under polynomial 0x131,
with bit 3 flipped in the data byte or in the checksum. -/
theorem sht2x_check_crc_rejects_bit_flip_witness :
    sht2x_check_crc 0x131 [0xDC] 1 0x79 = 0
      ∧ sht2x_check_crc 0x131 ([0xDC].set 0 (([0xDC] : List Nat).getD 0 0 ^^^ 2 ^ 3)) 1 0x79
          = SHT2X_ERROR_CRC
      ∧ sht2x_check_crc 0x131 [0xDC] 1 (0x79 ^^^ 2 ^ 3) = SHT2X_ERROR_CRC :=
  ⟨by decide,
    sht2x_check_crc_rejects_bit_flip 0x131 [0xDC] 1 0x79 0 3 (by decide) (by decide)
      (by decide) (by decide) (by decide)⟩

end Sht2x

namespace Sht2x

/-! ## The checksummed configuration reader (`sht2x_config_read`) -/

/-- Claim C3: when the command write and the two-byte read both succeed and
the bytes read are `(r, k)`, `sht2x_config_read` returns `SHT2X_ERROR_NONE` and
stores `r` if `k` is the CRC-8 of the single byte `r`; otherwise (in
particular when `k` is that CRC-8 with one bit flipped) it returns
`SHT2X_ERROR_CRC` and leaves `*user_register` as it was. -/
theorem sht2x_config_read_checksum {σ : Type} (E : Consts) (mem : Nat → Nat) (twi : Twi σ)
    (s : Drv σ) (user_register r k : Nat) (hr : r < 256) (hk : k < 256)
    (hwrite : (twi s.bus ⟨Dir.write, E.SHT2X_I2C_ADDRESS % 256, [mem E.USER_REG_R % 256], 1,
        E.TWI_DONT_ISSUE_STOP⟩).1.1 = true)
    (hread : (twi (twi s.bus ⟨Dir.write, E.SHT2X_I2C_ADDRESS % 256, [mem E.USER_REG_R % 256], 1,
          E.TWI_DONT_ISSUE_STOP⟩).2
        ⟨Dir.read, (E.SHT2X_I2C_ADDRESS ||| E.TWI_READ_BIT) % 256, [], 2,
          E.TWI_ISSUE_STOP⟩).1 = (true, [r, k])) :
    (k = crc8 E.POLYNOMIAL [r]
        → (sht2x_config_read E mem twi s user_register).1 = SHT2X_ERROR_NONE
          ∧ (sht2x_config_read E mem twi s user_register).2.1 = r)
      ∧ (k ≠ crc8 E.POLYNOMIAL [r]
        → (sht2x_config_read E mem twi s user_register).1 = SHT2X_ERROR_CRC
          ∧ (sht2x_config_read E mem twi s user_register).2.1 = user_register)
      ∧ (∀ bit, k = crc8 E.POLYNOMIAL [r] ^^^ 2 ^ bit
        → (sht2x_config_read E mem twi s user_register).1 = SHT2X_ERROR_CRC
          ∧ (sht2x_config_read E mem twi s user_register).2.1 = user_register) := by
  have hcrc := check_crc_single_byte E.POLYNOMIAL r k
  have hbad : k ≠ crc8 E.POLYNOMIAL [r]
      → (sht2x_config_read E mem twi s user_register).1 = SHT2X_ERROR_CRC
        ∧ (sht2x_config_read E mem twi s user_register).2.1 = user_register := by
    intro hne
    have herr : sht2x_check_crc E.POLYNOMIAL [r] 1 k = SHT2X_ERROR_CRC := hcrc.2 hne
    simp [sht2x_config_read, twi_master_transfer, hwrite, hread, Nat.mod_eq_of_lt hr,
      Nat.mod_eq_of_lt hk, herr]
  refine ⟨?_, hbad, ?_⟩
  · intro he
    have hok : sht2x_check_crc E.POLYNOMIAL [r] 1 k = 0 := hcrc.1 he
    have h1 : (r + 256 * k) % 256 = r := by omega
    simp [sht2x_config_read, twi_master_transfer, hwrite, hread, Nat.mod_eq_of_lt hr,
      Nat.mod_eq_of_lt hk, hok, SHT2X_ERROR_CRC, h1]
  · intro bit he
    apply hbad
    rw [he]
    exact fun h => xor_two_pow_ne _ bit h.symm

/-- Witness for C3 under polynomial 0x131: the frame (0x3A, 0x1E) is returned
as configuration 0x3A, and each of the 8 one-bit flips of the checksum 0x1E
gives the CRC error with `*user_register` untouched. -/
theorem sht2x_config_read_checksum_witness :
    crc8 0x131 [0x3A] = 0x1E
      ∧ (sht2x_config_read sht2xConsts (fun _ => 0) scripted
            ⟨[(true, []), (true, [0x3A, 0x1E])], [], 0⟩ 0x55).1 = SHT2X_ERROR_NONE
      ∧ (sht2x_config_read sht2xConsts (fun _ => 0) scripted
            ⟨[(true, []), (true, [0x3A, 0x1E])], [], 0⟩ 0x55).2.1 = 0x3A
      ∧ ∀ bit, bit < 8 →
          (sht2x_config_read sht2xConsts (fun _ => 0) scripted
              ⟨[(true, []), (true, [0x3A, 0x1E ^^^ 2 ^ bit])], [], 0⟩ 0x55).1 = SHT2X_ERROR_CRC
          ∧ (sht2x_config_read sht2xConsts (fun _ => 0) scripted
              ⟨[(true, []), (true, [0x3A, 0x1E ^^^ 2 ^ bit])], [], 0⟩ 0x55).2.1 = 0x55 :=
  ⟨by decide,
    ((sht2x_config_read_checksum sht2xConsts (fun _ => 0) scripted
        ⟨[(true, []), (true, [0x3A, 0x1E])], [], 0⟩ 0x55 0x3A 0x1E (by decide) (by decide)
        rfl rfl).1 (by decide)).1,
    ((sht2x_config_read_checksum sht2xConsts (fun _ => 0) scripted
        ⟨[(true, []), (true, [0x3A, 0x1E])], [], 0⟩ 0x55 0x3A 0x1E (by decide) (by decide)
        rfl rfl).1 (by decide)).2,
    fun bit hb =>
      (sht2x_config_read_checksum sht2xConsts (fun _ => 0) scripted
        ⟨[(true, []), (true, [0x3A, 0x1E ^^^ 2 ^ bit])], [], 0⟩ 0x55 0x3A (0x1E ^^^ 2 ^ bit)
        (by decide) (by interval_cases bit <;> decide) rfl rfl).2.2 bit
        (by have h : crc8 sht2xConsts.POLYNOMIAL [0x3A] = 0x1E := by decide
            rw [h])⟩

/-- Claim C4 (behaviour of the code): when the one-byte command write fails,
`sht2x_config_read` issues no read, leaves `*user_register` untouched and
returns `SHT2X_ERROR_NONE`; when the write succeeds and the read fails it
returns `SHT2X_ERROR_READ_FAILED`. -/
theorem sht2x_config_read_transfer_failure {σ : Type} (E : Consts) (mem : Nat → Nat)
    (twi : Twi σ) (s : Drv σ) (user_register : Nat) :
    ((twi s.bus ⟨Dir.write, E.SHT2X_I2C_ADDRESS % 256, [mem E.USER_REG_R % 256], 1,
          E.TWI_DONT_ISSUE_STOP⟩).1.1 = false
        → (sht2x_config_read E mem twi s user_register).1 = SHT2X_ERROR_NONE
          ∧ (sht2x_config_read E mem twi s user_register).2.1 = user_register
          ∧ (sht2x_config_read E mem twi s user_register).2.2.log
              = s.log ++ [⟨Dir.write, E.SHT2X_I2C_ADDRESS % 256, [mem E.USER_REG_R % 256], 1,
                  E.TWI_DONT_ISSUE_STOP⟩])
      ∧ ((twi s.bus ⟨Dir.write, E.SHT2X_I2C_ADDRESS % 256, [mem E.USER_REG_R % 256], 1,
            E.TWI_DONT_ISSUE_STOP⟩).1.1 = true
          → (twi (twi s.bus ⟨Dir.write, E.SHT2X_I2C_ADDRESS % 256, [mem E.USER_REG_R % 256], 1,
                E.TWI_DONT_ISSUE_STOP⟩).2
              ⟨Dir.read, (E.SHT2X_I2C_ADDRESS ||| E.TWI_READ_BIT) % 256, [], 2,
                E.TWI_ISSUE_STOP⟩).1.1 = false
          → (sht2x_config_read E mem twi s user_register).1 = SHT2X_ERROR_READ_FAILED
            ∧ (sht2x_config_read E mem twi s user_register).2.1 = user_register) := by
  constructor
  · intro hw
    simp [sht2x_config_read, twi_master_transfer, hw]
  · intro hw hr
    simp [sht2x_config_read, twi_master_transfer, hw, hr]

/-- Evaluation for C4 on a bus whose first transfer (the command write)
fails: the return code is `SHT2X_ERROR_NONE` (0), only the write was issued. -/
theorem sht2x_config_read_write_failure_returns_none :
    (sht2x_config_read sht2xConsts (fun _ => 0) scripted ⟨[(false, [])], [], 0⟩ 0x55).1
        = SHT2X_ERROR_NONE
      ∧ (sht2x_config_read sht2xConsts (fun _ => 0) scripted ⟨[(false, [])], [], 0⟩ 0x55).2.1
        = 0x55
      ∧ (sht2x_config_read sht2xConsts (fun _ => 0) scripted ⟨[(false, [])], [], 0⟩ 0x55).2.2.log
        = [⟨Dir.write, 0x80, [0], 1, false⟩]
      ∧ (sht2x_config_read sht2xConsts (fun _ => 0) scripted
          ⟨[(true, []), (false, [])], [], 0⟩ 0x55).1 = SHT2X_ERROR_READ_FAILED := by
  have h := sht2x_config_read_transfer_failure sht2xConsts (fun _ => 0) scripted
    ⟨[(false, [])], [], 0⟩ 0x55
  have h2 := sht2x_config_read_transfer_failure sht2xConsts (fun _ => 0) scripted
    ⟨[(true, []), (false, [])], [], 0⟩ 0x55
  exact ⟨(h.1 rfl).1, (h.1 rfl).2.1, (h.1 rfl).2.2, (h2.2 rfl rfl).1⟩

/-! ## The DS1624 driver -/

theorem ds1624_config_read_address {σ : Type} (E : Consts) (twi : Twi σ) (s : Drv σ) :
    (ds1624_config_read E twi s).2.m_device_address = s.m_device_address := by
  simp only [ds1624_config_read, twi_master_transfer]
  split
  · split <;> rfl
  · rfl

/-- Claim C5: whenever the configuration read of `ds1624_init` yields the
all-zero byte (the command write failed, the read failed, or the device
returned 0x00), `ds1624_init` returns false and issues no transfer after those
of the configuration read: the transfers are the command write and, if it
succeeded, the one-byte read; no mode-set write is attempted. -/
theorem ds1624_init_zero_config {σ : Type} (E : Consts) (twi : Twi σ) (s : Drv σ)
    (device_address : Nat)
    (hzero : (twi s.bus ⟨Dir.write, ds1624_bus_address device_address, [0xAC], 1,
          E.TWI_DONT_ISSUE_STOP⟩).1.1 = false
        ∨ (twi (twi s.bus ⟨Dir.write, ds1624_bus_address device_address, [0xAC], 1,
              E.TWI_DONT_ISSUE_STOP⟩).2
            ⟨Dir.read, (ds1624_bus_address device_address ||| E.TWI_READ_BIT) % 256, [], 1,
              E.TWI_ISSUE_STOP⟩).1.1 = false
        ∨ (twi (twi s.bus ⟨Dir.write, ds1624_bus_address device_address, [0xAC], 1,
              E.TWI_DONT_ISSUE_STOP⟩).2
            ⟨Dir.read, (ds1624_bus_address device_address ||| E.TWI_READ_BIT) % 256, [], 1,
              E.TWI_ISSUE_STOP⟩).1.2.getD 0 0 % 256 = 0) :
    (ds1624_init E twi s device_address).1 = false
      ∧ (ds1624_init E twi s device_address).2
          = (ds1624_config_read E twi
              { s with m_device_address := ds1624_bus_address device_address }).2
      ∧ ((ds1624_init E twi s device_address).2.log
            = s.log ++ [⟨Dir.write, ds1624_bus_address device_address, [0xAC], 1,
                          E.TWI_DONT_ISSUE_STOP⟩]
          ∨ (ds1624_init E twi s device_address).2.log
            = s.log ++ [⟨Dir.write, ds1624_bus_address device_address, [0xAC], 1,
                          E.TWI_DONT_ISSUE_STOP⟩,
                        ⟨Dir.read, (ds1624_bus_address device_address ||| E.TWI_READ_BIT) % 256,
                          [], 1, E.TWI_ISSUE_STOP⟩]) := by
  have h : (ds1624_config_read E twi
      { s with m_device_address := ds1624_bus_address device_address }).1 = 0 := by
    simp only [ds1624_config_read, twi_master_transfer, command_access_config]
    split
    · split
      · rename_i h1 h2
        rcases hzero with h | h | h
        · rw [h] at h1; exact absurd h1 (by decide)
        · rw [h] at h2; exact absurd h2 (by decide)
        · exact h
      · rfl
    · rfl
  have hinit : ds1624_init E twi s device_address
        = (false, (ds1624_config_read E twi
            { s with m_device_address := ds1624_bus_address device_address }).2) := by
    simp only [ds1624_init, h, ne_eq, not_true_eq_false, if_false]
  refine ⟨congrArg Prod.fst hinit, congrArg Prod.snd hinit, ?_⟩
  rw [hinit]
  simp only [ds1624_config_read, twi_master_transfer, command_access_config]
  split
  · split <;> simp
  · simp

/-- Witness for C5: device address 0x48, both sub-transfers succeed and the
device returns configuration 0x00 (a third response is available but never
asked for). -/
theorem ds1624_init_zero_config_witness :
    (ds1624_init sht2xConsts scripted ⟨[(true, []), (true, [0x00]), (true, [])], [], 0⟩
          0x48).1 = false
      ∧ (ds1624_init sht2xConsts scripted ⟨[(true, []), (true, [0x00]), (true, [])], [], 0⟩
          0x48).2.log
        = [⟨Dir.write, 0x20, [0xAC], 1, false⟩, ⟨Dir.read, 0x21, [], 1, true⟩]
      ∧ (ds1624_init sht2xConsts scripted ⟨[(true, []), (true, [0x00]), (true, [])], [], 0⟩
          0x48).2.bus = [(true, [])] :=
  ⟨(ds1624_init_zero_config sht2xConsts scripted
      ⟨[(true, []), (true, [0x00]), (true, [])], [], 0⟩ 0x48 (Or.inr (Or.inr rfl))).1,
    by decide, by decide⟩

/-- Claim C6: when the configuration read of `ds1624_init` succeeds with a
non-zero byte `c`: if the one-shot bit (0x01) of `c` is set, `ds1624_init`
returns true and issues no further transfer; if it is clear, `ds1624_init`
issues exactly one further transfer, the write of `[0xAC, 0x01]` to the stored
address with a stop condition, and returns that transfer's result. -/
theorem ds1624_init_nonzero_config {σ : Type} (E : Consts) (twi : Twi σ) (s : Drv σ)
    (device_address c : Nat) (hc : c < 256) (hne : c ≠ 0)
    (hwrite : (twi s.bus ⟨Dir.write, ds1624_bus_address device_address, [0xAC], 1,
        E.TWI_DONT_ISSUE_STOP⟩).1.1 = true)
    (hread : (twi (twi s.bus ⟨Dir.write, ds1624_bus_address device_address, [0xAC], 1,
          E.TWI_DONT_ISSUE_STOP⟩).2
        ⟨Dir.read, (ds1624_bus_address device_address ||| E.TWI_READ_BIT) % 256, [], 1,
          E.TWI_ISSUE_STOP⟩).1 = (true, [c])) :
    (c &&& 0x01 ≠ 0
        → (ds1624_init E twi s device_address).1 = true
          ∧ (ds1624_init E twi s device_address).2.log
            = s.log ++ [⟨Dir.write, ds1624_bus_address device_address, [0xAC], 1,
                          E.TWI_DONT_ISSUE_STOP⟩,
                        ⟨Dir.read, (ds1624_bus_address device_address ||| E.TWI_READ_BIT) % 256,
                          [], 1, E.TWI_ISSUE_STOP⟩])
      ∧ (c &&& 0x01 = 0
        → (ds1624_init E twi s device_address).1
            = (twi (twi (twi s.bus ⟨Dir.write, ds1624_bus_address device_address, [0xAC], 1,
                    E.TWI_DONT_ISSUE_STOP⟩).2
                  ⟨Dir.read, (ds1624_bus_address device_address ||| E.TWI_READ_BIT) % 256, [], 1,
                    E.TWI_ISSUE_STOP⟩).2
                ⟨Dir.write, ds1624_bus_address device_address, [0xAC, 0x01], 2,
                  E.TWI_ISSUE_STOP⟩).1.1
          ∧ (ds1624_init E twi s device_address).2.log
            = s.log ++ [⟨Dir.write, ds1624_bus_address device_address, [0xAC], 1,
                          E.TWI_DONT_ISSUE_STOP⟩,
                        ⟨Dir.read, (ds1624_bus_address device_address ||| E.TWI_READ_BIT) % 256,
                          [], 1, E.TWI_ISSUE_STOP⟩,
                        ⟨Dir.write, ds1624_bus_address device_address, [0xAC, 0x01], 2,
                          E.TWI_ISSUE_STOP⟩]) := by
  have hcfg : ds1624_config_read E twi
        { s with m_device_address := ds1624_bus_address device_address }
      = (c, { bus := (twi (twi s.bus ⟨Dir.write, ds1624_bus_address device_address, [0xAC], 1,
                    E.TWI_DONT_ISSUE_STOP⟩).2
                  ⟨Dir.read, (ds1624_bus_address device_address ||| E.TWI_READ_BIT) % 256, [], 1,
                    E.TWI_ISSUE_STOP⟩).2
              log := s.log ++ [⟨Dir.write, ds1624_bus_address device_address, [0xAC], 1,
                          E.TWI_DONT_ISSUE_STOP⟩,
                        ⟨Dir.read, (ds1624_bus_address device_address ||| E.TWI_READ_BIT) % 256,
                          [], 1, E.TWI_ISSUE_STOP⟩]
              m_device_address := ds1624_bus_address device_address }) := by
    simp [ds1624_config_read, twi_master_transfer, command_access_config, hwrite, hread,
      Nat.mod_eq_of_lt hc]
  constructor
  · intro h1
    simp only [ds1624_init, hcfg, DS1624_ONESHOT_MODE]
    rw [if_pos hne, if_neg h1]
    exact ⟨rfl, rfl⟩
  · intro h0
    simp only [ds1624_init, hcfg, DS1624_ONESHOT_MODE, command_access_config,
      twi_master_transfer]
    rw [if_pos hne, if_pos h0]
    exact ⟨by simp, by simp⟩

end Sht2x

namespace Sht2x

/-- Witness for C6: device address 1, configuration 0x80 (one-shot bit clear)
and a failing mode-set write: the result is false and the third and last
transfer is the write of `[0xAC, 0x01]` with a stop condition. -/
theorem ds1624_init_nonzero_config_witness :
    (0x80 &&& 0x01 = 0)
      ∧ (ds1624_init sht2xConsts scripted ⟨[(true, []), (true, [0x80]), (false, [])], [], 0⟩
          1).1 = false
      ∧ (ds1624_init sht2xConsts scripted ⟨[(true, []), (true, [0x80]), (false, [])], [], 0⟩
          1).2.log
        = [⟨Dir.write, 0x92, [0xAC], 1, false⟩, ⟨Dir.read, 0x93, [], 1, true⟩,
           ⟨Dir.write, 0x92, [0xAC, 0x01], 2, true⟩] :=
  ⟨by decide,
    ((ds1624_init_nonzero_config sht2xConsts scripted
      ⟨[(true, []), (true, [0x80]), (false, [])], [], 0⟩ 1 0x80 (by decide) (by decide)
      rfl rfl).2 (by decide)).1,
    ((ds1624_init_nonzero_config sht2xConsts scripted
      ⟨[(true, []), (true, [0x80]), (false, [])], [], 0⟩ 1 0x80 (by decide) (by decide)
      rfl rfl).2 (by decide)).2⟩

theorem ds1624_config_read_ok {σ : Type} (E : Consts) (twi : Twi σ) (s : Drv σ) (c : Nat)
    (hc : c < 256)
    (hwrite : (twi s.bus ⟨Dir.write, s.m_device_address, [0xAC], 1,
        E.TWI_DONT_ISSUE_STOP⟩).1.1 = true)
    (hread : (twi (twi s.bus ⟨Dir.write, s.m_device_address, [0xAC], 1,
          E.TWI_DONT_ISSUE_STOP⟩).2
        ⟨Dir.read, (s.m_device_address ||| E.TWI_READ_BIT) % 256, [], 1,
          E.TWI_ISSUE_STOP⟩).1 = (true, [c])) :
    (ds1624_config_read E twi s).1 = c := by
  simp [ds1624_config_read, twi_master_transfer, command_access_config, hwrite, hread,
    Nat.mod_eq_of_lt hc]

theorem ds1624_config_read_failed {σ : Type} (E : Consts) (twi : Twi σ) (s : Drv σ)
    (hfail : (twi s.bus ⟨Dir.write, s.m_device_address, [0xAC], 1,
          E.TWI_DONT_ISSUE_STOP⟩).1.1 = false
        ∨ (twi (twi s.bus ⟨Dir.write, s.m_device_address, [0xAC], 1,
              E.TWI_DONT_ISSUE_STOP⟩).2
            ⟨Dir.read, (s.m_device_address ||| E.TWI_READ_BIT) % 256, [], 1,
              E.TWI_ISSUE_STOP⟩).1.1 = false) :
    (ds1624_config_read E twi s).1 = 0 := by
  simp only [ds1624_config_read, twi_master_transfer, command_access_config]
  split
  · split
    · rename_i h1 h2
      rcases hfail with h | h
      · rw [h] at h1; exact absurd h1 (by decide)
      · rw [h] at h2; exact absurd h2 (by decide)
    · rfl
  · rfl

theorem ds1624_is_temp_conversion_done_eq {σ : Type} (E : Consts) (twi : Twi σ) (s : Drv σ) :
    (ds1624_is_temp_conversion_done E twi s).1
      = decide ((ds1624_config_read E twi s).1 &&& 0x80 ≠ 0) := by
  simp only [ds1624_is_temp_conversion_done, DS1624_CONVERSION_DONE]
  split <;> simp_all

/-- Claim C7: when both sub-transfers of the configuration read succeed and
the byte read is `c`, `ds1624_is_temp_conversion_done` returns true exactly when
bit 0x80 of `c` is set; two successful reads whose bytes agree on bit 0x80 give
the same result, whatever the other bits and whatever the bus. -/
theorem ds1624_is_temp_conversion_done_bit {σ τ : Type} (E : Consts) (twi : Twi σ) (s : Drv σ)
    (twj : Twi τ) (t : Drv τ) (c d : Nat) (hc : c < 256) (hd : d < 256)
    (hwrite : (twi s.bus ⟨Dir.write, s.m_device_address, [0xAC], 1,
        E.TWI_DONT_ISSUE_STOP⟩).1.1 = true)
    (hread : (twi (twi s.bus ⟨Dir.write, s.m_device_address, [0xAC], 1,
          E.TWI_DONT_ISSUE_STOP⟩).2
        ⟨Dir.read, (s.m_device_address ||| E.TWI_READ_BIT) % 256, [], 1,
          E.TWI_ISSUE_STOP⟩).1 = (true, [c]))
    (hwrite2 : (twj t.bus ⟨Dir.write, t.m_device_address, [0xAC], 1,
        E.TWI_DONT_ISSUE_STOP⟩).1.1 = true)
    (hread2 : (twj (twj t.bus ⟨Dir.write, t.m_device_address, [0xAC], 1,
          E.TWI_DONT_ISSUE_STOP⟩).2
        ⟨Dir.read, (t.m_device_address ||| E.TWI_READ_BIT) % 256, [], 1,
          E.TWI_ISSUE_STOP⟩).1 = (true, [d])) :
    ((ds1624_is_temp_conversion_done E twi s).1 = true ↔ c &&& 0x80 ≠ 0)
      ∧ (c &&& 0x80 = d &&& 0x80
        → (ds1624_is_temp_conversion_done E twi s).1
          = (ds1624_is_temp_conversion_done E twj t).1) := by
  rw [ds1624_is_temp_conversion_done_eq, ds1624_is_temp_conversion_done_eq,
    ds1624_config_read_ok E twi s c hc hwrite hread,
    ds1624_config_read_ok E twj t d hd hwrite2 hread2]
  constructor
  · simp
  · intro h; rw [h]

/-- Witness for C7: configuration bytes 0x81 and 0xFE agree on bit 0x80 and
both report a finished conversion. -/
theorem ds1624_is_temp_conversion_done_bit_witness :
    (0x81 &&& 0x80 = 0xFE &&& 0x80)
      ∧ (ds1624_is_temp_conversion_done sht2xConsts scripted
          ⟨[(true, []), (true, [0x81])], [], 0x90⟩).1 = true
      ∧ (ds1624_is_temp_conversion_done sht2xConsts scripted
          ⟨[(true, []), (true, [0x81])], [], 0x90⟩).1
        = (ds1624_is_temp_conversion_done sht2xConsts scripted
          ⟨[(true, []), (true, [0xFE])], [], 0x92⟩).1 :=
  ⟨by decide,
    (ds1624_is_temp_conversion_done_bit sht2xConsts scripted
      ⟨[(true, []), (true, [0x81])], [], 0x90⟩ scripted
      ⟨[(true, []), (true, [0xFE])], [], 0x92⟩ 0x81 0xFE (by decide) (by decide)
      rfl rfl rfl rfl).1.2 (by decide),
    (ds1624_is_temp_conversion_done_bit sht2xConsts scripted
      ⟨[(true, []), (true, [0x81])], [], 0x90⟩ scripted
      ⟨[(true, []), (true, [0xFE])], [], 0x92⟩ 0x81 0xFE (by decide) (by decide)
      rfl rfl rfl rfl).2 (by decide)⟩

/-- Counterexample to C8 as stated: on a bus whose command write fails the
result of `ds1624_is_temp_conversion_done` is false, the same value it gives
for a successful read of configuration 0x01 (conversion-complete bit clear). -/
theorem ds1624_is_temp_conversion_done_failure_indistinguishable :
    (ds1624_is_temp_conversion_done sht2xConsts scripted ⟨[(false, [])], [], 0x90⟩).1
      = (ds1624_is_temp_conversion_done sht2xConsts scripted
          ⟨[(true, []), (true, [0x01])], [], 0x90⟩).1 := by
  decide

/-- Claim C8, amended: when the command write or the read of the configuration
fails, `ds1624_is_temp_conversion_done` returns false, which is also its result
for a successful read whose conversion-complete bit is clear. -/
theorem ds1624_is_temp_conversion_done_failure {σ τ : Type} (E : Consts) (twi : Twi σ)
    (s : Drv σ) (twj : Twi τ) (t : Drv τ) (d : Nat) (hd : d < 256)
    (hfail : (twi s.bus ⟨Dir.write, s.m_device_address, [0xAC], 1,
          E.TWI_DONT_ISSUE_STOP⟩).1.1 = false
        ∨ (twi (twi s.bus ⟨Dir.write, s.m_device_address, [0xAC], 1,
              E.TWI_DONT_ISSUE_STOP⟩).2
            ⟨Dir.read, (s.m_device_address ||| E.TWI_READ_BIT) % 256, [], 1,
              E.TWI_ISSUE_STOP⟩).1.1 = false)
    (hwrite2 : (twj t.bus ⟨Dir.write, t.m_device_address, [0xAC], 1,
        E.TWI_DONT_ISSUE_STOP⟩).1.1 = true)
    (hread2 : (twj (twj t.bus ⟨Dir.write, t.m_device_address, [0xAC], 1,
          E.TWI_DONT_ISSUE_STOP⟩).2
        ⟨Dir.read, (t.m_device_address ||| E.TWI_READ_BIT) % 256, [], 1,
          E.TWI_ISSUE_STOP⟩).1 = (true, [d]))
    (hclear : d &&& 0x80 = 0) :
    (ds1624_is_temp_conversion_done E twi s).1 = false
      ∧ (ds1624_is_temp_conversion_done E twj t).1 = false := by
  rw [ds1624_is_temp_conversion_done_eq, ds1624_is_temp_conversion_done_eq,
    ds1624_config_read_failed E twi s hfail,
    ds1624_config_read_ok E twj t d hd hwrite2 hread2, hclear]
  constructor <;> decide

/-- Witness for the amended C8: a failing read against a successful read of
configuration 0x7F. -/
theorem ds1624_is_temp_conversion_done_failure_witness :
    (ds1624_is_temp_conversion_done sht2xConsts scripted
        ⟨[(true, []), (false, [0xFF])], [], 0x90⟩).1 = false
      ∧ (ds1624_is_temp_conversion_done sht2xConsts scripted
        ⟨[(true, []), (true, [0x7F])], [], 0x90⟩).1 = false :=
  ds1624_is_temp_conversion_done_failure sht2xConsts scripted
    ⟨[(true, []), (false, [0xFF])], [], 0x90⟩ scripted
    ⟨[(true, []), (true, [0x7F])], [], 0x90⟩ 0x7F (by decide) (Or.inr rfl) rfl rfl (by decide)

end Sht2x

namespace Sht2x

/-- Claim C9: `ds1624_temp_read` returns true exactly when the command write
(0xAA, no stop) and the two-byte read (with stop) both succeed; then the outputs
are the two bytes read, as signed 8-bit values.  On a failure it returns false
and leaves both outputs as they were, and after a failed write no read is
issued.  Bytes 0x19 and 0x40 decode to 25 and 64; a byte `b ≥ 0x80` to
`b - 256`. -/
theorem ds1624_temp_read_spec {σ : Type} (E : Consts) (twi : Twi σ) (s : Drv σ)
    (temperature_in_celcius temperature_fraction : Int) :
    ((ds1624_temp_read E twi s temperature_in_celcius temperature_fraction).1 = true
        ↔ (twi s.bus ⟨Dir.write, s.m_device_address, [0xAA], 1,
              E.TWI_DONT_ISSUE_STOP⟩).1.1 = true
          ∧ (twi (twi s.bus ⟨Dir.write, s.m_device_address, [0xAA], 1,
                E.TWI_DONT_ISSUE_STOP⟩).2
              ⟨Dir.read, (s.m_device_address ||| E.TWI_READ_BIT) % 256, [], 2,
                E.TWI_ISSUE_STOP⟩).1.1 = true)
      ∧ ((ds1624_temp_read E twi s temperature_in_celcius temperature_fraction).1 = true
        → (ds1624_temp_read E twi s temperature_in_celcius temperature_fraction).2.1
            = int8_of_byte ((twi (twi s.bus ⟨Dir.write, s.m_device_address, [0xAA], 1,
                  E.TWI_DONT_ISSUE_STOP⟩).2
                ⟨Dir.read, (s.m_device_address ||| E.TWI_READ_BIT) % 256, [], 2,
                  E.TWI_ISSUE_STOP⟩).1.2.getD 0 0)
          ∧ (ds1624_temp_read E twi s temperature_in_celcius temperature_fraction).2.2.1
            = int8_of_byte ((twi (twi s.bus ⟨Dir.write, s.m_device_address, [0xAA], 1,
                  E.TWI_DONT_ISSUE_STOP⟩).2
                ⟨Dir.read, (s.m_device_address ||| E.TWI_READ_BIT) % 256, [], 2,
                  E.TWI_ISSUE_STOP⟩).1.2.getD 1 0)
          ∧ (ds1624_temp_read E twi s temperature_in_celcius temperature_fraction).2.2.2.log
            = s.log ++ [⟨Dir.write, s.m_device_address, [0xAA], 1, E.TWI_DONT_ISSUE_STOP⟩,
                ⟨Dir.read, (s.m_device_address ||| E.TWI_READ_BIT) % 256, [], 2,
                  E.TWI_ISSUE_STOP⟩])
      ∧ ((ds1624_temp_read E twi s temperature_in_celcius temperature_fraction).1 = false
        → (ds1624_temp_read E twi s temperature_in_celcius temperature_fraction).2.1
            = temperature_in_celcius
          ∧ (ds1624_temp_read E twi s temperature_in_celcius temperature_fraction).2.2.1
            = temperature_fraction)
      ∧ ((twi s.bus ⟨Dir.write, s.m_device_address, [0xAA], 1,
              E.TWI_DONT_ISSUE_STOP⟩).1.1 = false
        → (ds1624_temp_read E twi s temperature_in_celcius temperature_fraction).2.2.2.log
            = s.log ++ [⟨Dir.write, s.m_device_address, [0xAA], 1, E.TWI_DONT_ISSUE_STOP⟩])
      ∧ int8_of_byte 0x19 = 25 ∧ int8_of_byte 0x40 = 64
      ∧ (∀ b : Nat, b < 0x80 → int8_of_byte b = (b : Int))
      ∧ (∀ b : Nat, 0x80 ≤ b → b < 256 → int8_of_byte b = (b : Int) - 256) := by
  refine ⟨?_, ?_, ?_, ?_, by decide, by decide, ?_, ?_⟩
  · simp only [ds1624_temp_read, twi_master_transfer, command_read_temp]
    split
    · split <;> simp_all
    · simp_all
  · simp only [ds1624_temp_read, twi_master_transfer, command_read_temp]
    split
    · split <;> simp_all
    · simp_all
  · simp only [ds1624_temp_read, twi_master_transfer, command_read_temp]
    split
    · split <;> simp_all
    · simp_all
  · intro hw
    simp [ds1624_temp_read, twi_master_transfer, command_read_temp, hw]
  · intro b hb
    have h1 : b % 256 = b := Nat.mod_eq_of_lt (by omega)
    simp only [int8_of_byte, h1]
    rw [if_pos (by omega)]
  · intro b hb hb2
    have h1 : b % 256 = b := Nat.mod_eq_of_lt hb2
    simp only [int8_of_byte, h1]
    rw [if_neg (by omega)]

/-- Evaluation of C9 on a bus that answers the read with bytes 0x19, 0x40:
the result is true with outputs 25 and 64; with bytes 0xE7, 0x80 the outputs
are -25 and -128. -/
theorem ds1624_temp_read_spec_witness :
    (ds1624_temp_read sht2xConsts scripted ⟨[(true, []), (true, [0x19, 0x40])], [], 0x90⟩
        0 0).1 = true
      ∧ (ds1624_temp_read sht2xConsts scripted ⟨[(true, []), (true, [0x19, 0x40])], [], 0x90⟩
        0 0).2.1 = 25
      ∧ (ds1624_temp_read sht2xConsts scripted ⟨[(true, []), (true, [0x19, 0x40])], [], 0x90⟩
        0 0).2.2.1 = 64
      ∧ (ds1624_temp_read sht2xConsts scripted ⟨[(true, []), (true, [0xE7, 0x80])], [], 0x90⟩
        0 0).2.1 = -25
      ∧ (ds1624_temp_read sht2xConsts scripted ⟨[(true, []), (true, [0xE7, 0x80])], [], 0x90⟩
        0 0).2.2.1 = -128 :=
  ⟨(ds1624_temp_read_spec sht2xConsts scripted ⟨[(true, []), (true, [0x19, 0x40])], [], 0x90⟩
      0 0).1.2 ⟨rfl, rfl⟩,
    ((ds1624_temp_read_spec sht2xConsts scripted ⟨[(true, []), (true, [0x19, 0x40])], [], 0x90⟩
      0 0).2.1 (by decide)).1.trans (by decide),
    ((ds1624_temp_read_spec sht2xConsts scripted ⟨[(true, []), (true, [0x19, 0x40])], [], 0x90⟩
      0 0).2.1 (by decide)).2.1.trans (by decide),
    ((ds1624_temp_read_spec sht2xConsts scripted ⟨[(true, []), (true, [0xE7, 0x80])], [], 0x90⟩
      0 0).2.1 (by decide)).1.trans (by decide),
    ((ds1624_temp_read_spec sht2xConsts scripted ⟨[(true, []), (true, [0xE7, 0x80])], [], 0x90⟩
      0 0).2.1 (by decide)).2.1.trans (by decide)⟩

/-! ## The stored device address -/

theorem addressed_to_write (E : Consts) (m : Nat) (data : List Nat) (n : Nat) (stop : Bool) :
    addressed_to E m [⟨Dir.write, m, data, n, stop⟩] := by
  intro x hx
  simp only [List.mem_singleton] at hx
  subst hx
  simp

theorem addressed_to_write_read (E : Consts) (m : Nat) (data : List Nat) (n k : Nat)
    (stop halt : Bool) :
    addressed_to E m
      [⟨Dir.write, m, data, n, stop⟩, ⟨Dir.read, (m ||| E.TWI_READ_BIT) % 256, [], k, halt⟩] := by
  intro x hx
  simp only [List.mem_cons, List.mem_singleton, List.not_mem_nil, or_false] at hx
  rcases hx with rfl | rfl <;> simp

theorem ds1624_config_read_log {σ : Type} (E : Consts) (twi : Twi σ) (s : Drv σ) :
    ∃ issued, (ds1624_config_read E twi s).2.log = s.log ++ issued
      ∧ addressed_to E s.m_device_address issued := by
  simp only [ds1624_config_read, twi_master_transfer]
  split
  · split
    · exact ⟨_, List.append_assoc _ _ _, addressed_to_write_read E _ _ _ _ _ _⟩
    · exact ⟨_, List.append_assoc _ _ _, addressed_to_write_read E _ _ _ _ _ _⟩
  · exact ⟨_, rfl, addressed_to_write E _ _ _ _⟩

theorem run_op_spec {σ : Type} (E : Consts) (twi : Twi σ) (s : Drv σ) (op : Op) :
    (run_op E twi s op).m_device_address = s.m_device_address
      ∧ ∃ issued, (run_op E twi s op).log = s.log ++ issued
          ∧ addressed_to E s.m_device_address issued := by
  cases op with
  | start_temp_conversion =>
    exact ⟨rfl, _, rfl, addressed_to_write E _ _ _ _⟩
  | is_temp_conversion_done =>
    have hs : (run_op E twi s Op.is_temp_conversion_done) = (ds1624_config_read E twi s).2 := by
      simp only [run_op, ds1624_is_temp_conversion_done]
      split <;> rfl
    rw [hs]
    exact ⟨ds1624_config_read_address E twi s, ds1624_config_read_log E twi s⟩
  | temp_read =>
    simp only [run_op, ds1624_temp_read, twi_master_transfer]
    split
    · split
      · exact ⟨rfl, _, List.append_assoc _ _ _, addressed_to_write_read E _ _ _ _ _ _⟩
      · exact ⟨rfl, _, List.append_assoc _ _ _, addressed_to_write_read E _ _ _ _ _ _⟩
    · exact ⟨rfl, _, rfl, addressed_to_write E _ _ _ _⟩

theorem run_ops_spec {σ : Type} (E : Consts) (twi : Twi σ) (ops : List Op) (s : Drv σ) :
    (run_ops E twi s ops).m_device_address = s.m_device_address
      ∧ ∃ issued, (run_ops E twi s ops).log = s.log ++ issued
          ∧ addressed_to E s.m_device_address issued := by
  induction ops generalizing s with
  | nil => exact ⟨rfl, [], by simp [run_ops], fun x hx => absurd hx (List.not_mem_nil x)⟩
  | cons op ops ih =>
    obtain ⟨ha, l1, hl1, hp1⟩ := run_op_spec E twi s op
    obtain ⟨hb, l2, hl2, hp2⟩ := ih (run_op E twi s op)
    have hrun : run_ops E twi s (op :: ops) = run_ops E twi (run_op E twi s op) ops := rfl
    rw [hrun]
    refine ⟨hb.trans ha, l1 ++ l2, ?_, ?_⟩
    · rw [hl2, hl1, List.append_assoc]
    · intro x hx
      rcases List.mem_append.1 hx with h | h
      · exact hp1 x h
      · rw [ha] at hp2; exact hp2 x h

theorem ds1624_init_address {σ : Type} (E : Consts) (twi : Twi σ) (s : Drv σ) (a : Nat) :
    (ds1624_init E twi s a).2.m_device_address = ds1624_bus_address a := by
  have haddr := ds1624_config_read_address E twi
    { s with m_device_address := ds1624_bus_address a }
  simp only [ds1624_init, twi_master_transfer]
  split
  · split
    · exact haddr
    · exact haddr
  · exact haddr

theorem ds1624_bus_address_eq (a : Nat) : ds1624_bus_address a = (0x90 + 2 * a) % 256 := by
  simp only [ds1624_bus_address, DS1634_BASE_ADDRESS, Nat.shiftLeft_eq]
  omega

/-- Claim C10: after `ds1624_init(a)` the stored address is `(0x90 + 2a) mod 256`;
for `a` in 0..7 it is 0x90 with `a` in bits [3:1] and bit 0 clear, and distinct
such `a` give distinct addresses.  Any sequence of start-conversion,
conversion-done and temperature-read operations after the init leaves the
stored address unchanged, and every transfer it issues goes to the stored
address for a write and to that address OR `TWI_READ_BIT` for a read. -/
theorem ds1624_address_fixed {σ : Type} (E : Consts) (twi : Twi σ) (s : Drv σ) (a : Nat)
    (ops : List Op) (hbit : E.TWI_READ_BIT < 256) :
    (ds1624_init E twi s a).2.m_device_address = (0x90 + 2 * a) % 256
      ∧ (a < 8 → (0x90 + 2 * a) % 256 = 0x90 ||| (a <<< 1)
            ∧ ((0x90 + 2 * a) % 256).testBit 0 = false
            ∧ ∀ b, b < 8 → (0x90 + 2 * b) % 256 = (0x90 + 2 * a) % 256 → b = a)
      ∧ (run_ops E twi (ds1624_init E twi s a).2 ops).m_device_address
          = (ds1624_init E twi s a).2.m_device_address
      ∧ ∃ issued, (run_ops E twi (ds1624_init E twi s a).2 ops).log
            = (ds1624_init E twi s a).2.log ++ issued
          ∧ ∀ x ∈ issued,
              (x.dir = Dir.write → x.address = (ds1624_init E twi s a).2.m_device_address)
              ∧ (x.dir = Dir.read
                → x.address = (ds1624_init E twi s a).2.m_device_address ||| E.TWI_READ_BIT) := by
  have hm : (ds1624_init E twi s a).2.m_device_address = (0x90 + 2 * a) % 256 := by
    rw [ds1624_init_address, ds1624_bus_address_eq]
  obtain ⟨hkeep, issued, hlog, hto⟩ := run_ops_spec E twi ops (ds1624_init E twi s a).2
  refine ⟨hm, ?_, hkeep, issued, hlog, ?_⟩
  · intro ha
    refine ⟨?_, ?_, ?_⟩
    · interval_cases a <;> decide
    · interval_cases a <;> decide
    · intro b hb h
      omega
  · intro x hx
    refine ⟨(hto x hx).1, ?_⟩
    intro hd
    rw [(hto x hx).2 hd]
    apply Nat.mod_eq_of_lt
    have h1 : (ds1624_init E twi s a).2.m_device_address < 2 ^ 8 := by
      rw [hm]; exact Nat.mod_lt _ (by norm_num)
    have h2 : E.TWI_READ_BIT < 2 ^ 8 := by norm_num; exact hbit
    have h3 := Nat.or_lt_two_pow h1 h2
    norm_num at h3
    exact h3

/-- Witness for C10: init with device address 3 on a bus that reports
configuration 0x01, followed by start-conversion, a poll and a temperature
read: the stored address stays 0x96 and the four later transfers go to 0x96
(writes) and 0x97 (reads). -/
theorem ds1624_address_fixed_witness :
    sht2xConsts.TWI_READ_BIT < 256
      ∧ (ds1624_init sht2xConsts scripted ⟨[(true, []), (true, [0x01])], [], 0⟩ 3).2.m_device_address
          = 0x96
      ∧ (run_ops sht2xConsts scripted
            (ds1624_init sht2xConsts scripted ⟨[(true, []), (true, [0x01])], [], 0⟩ 3).2
            [Op.start_temp_conversion, Op.is_temp_conversion_done, Op.temp_read]).m_device_address
          = (ds1624_init sht2xConsts scripted ⟨[(true, []), (true, [0x01])], [], 0⟩
              3).2.m_device_address :=
  ⟨by decide,
    (ds1624_address_fixed sht2xConsts scripted ⟨[(true, []), (true, [0x01])], [], 0⟩ 3
      [Op.start_temp_conversion, Op.is_temp_conversion_done, Op.temp_read] (by decide)).1,
    (ds1624_address_fixed sht2xConsts scripted ⟨[(true, []), (true, [0x01])], [], 0⟩ 3
      [Op.start_temp_conversion, Op.is_temp_conversion_done, Op.temp_read] (by decide)).2.2.1⟩

end Sht2x
